import Mathlib

/-!
Verification of the WNPRedux-Error-Proxy report dispatcher (`src/main.rs`).

The embedding models the data types (`AppConfig`, `Cache`, `ReportType`,
`ReportBody`), the webhook payload built inside the `send` closure, and the
`report_route` handler.  The handler is modelled as a pure function from the
request body, the configuration, the cache state and the outcome of the
webhook call to an outcome record; the record also carries a trace of the
observable events (lock acquisition/release, cache reads and writes, the
sink call), which lets us state the frame and lock-scope properties.
-/

/-- Mirror of `AppConfig` in `src/main.rs`. -/
structure AppConfig where
  port : Int
  webhook_url : String
  webhook_avatar_url : String
deriving Repr, DecidableEq

/-- Mirror of `Cache`: a `HashMap<String, bool>` wrapper.  Only the key set is
ever read (`contains_key`), so the map is embedded as an association list. -/
structure Cache where
  data : List (String × Bool)
deriving Repr, DecidableEq

def Cache.new : Cache := ⟨[]⟩

/-- `Cache::contains`, i.e. `self.data.contains_key(key)`. -/
def Cache.contains (c : Cache) (key : String) : Bool :=
  c.data.any (fun p => p.1 == key)

/-- `Cache::insert`, i.e. `self.data.insert(key, value)` (a `HashMap` insert
replaces any existing binding for the key). -/
def Cache.insert (c : Cache) (key : String) (value : Bool) : Cache :=
  ⟨(key, value) :: c.data.filter (fun p => !(p.1 == key))⟩

/-- Mirror of `ReportType`. -/
inductive ReportType where
  | Manual
  | Automatic
deriving Repr, DecidableEq

/-- `matches!(body.report_type, ReportType::Automatic)`. -/
def ReportType.isAutomatic : ReportType → Bool
  | .Automatic => true
  | .Manual => false

/-- Mirror of `ReportBody`. -/
structure ReportBody where
  report_type : ReportType
  message : String
  ext_version : String
deriving Repr, DecidableEq

/-- Mirror of `rocket::http::Status` as used by the handler (only
`InternalServerError` is ever produced). -/
inductive Status where
  | internalServerError
deriving Repr, DecidableEq

/-- The dedup key computed by the handler:
`format!("{} - {}", body.ext_version, body.message)`. -/
def dedupKey (body : ReportBody) : String :=
  body.ext_version ++ " - " ++ body.message

/-- The message built inside the `client.send` closure: username, avatar and
one embed (title, description, footer with no footer icon). -/
structure WebhookMessage where
  username : String
  avatar_url : String
  title : String
  description : String
  footer : String
  footer_icon : Option String
deriving Repr, DecidableEq

/-- The payload the `send` closure constructs from the configuration and the
request body. -/
def webhookPayload (config : AppConfig) (body : ReportBody) : WebhookMessage :=
  { username := "WNPRedux Reporter"
    avatar_url := config.webhook_avatar_url
    title := if body.report_type.isAutomatic then "Automatic Report" else "Manual Report"
    description := body.message
    footer := "v" ++ body.ext_version
    footer_icon := none }

/-- Observable events of one handler run. -/
inductive Event where
  | lockAcquire
  | cacheContains (key : String) (result : Bool)
  | cacheInsert (key : String)
  | lockRelease
  | sinkSend (payload : WebhookMessage) (ok : Bool)
deriving Repr, DecidableEq

/-- Result, final cache state and event trace of one handler run. -/
structure Outcome where
  result : Except Status String
  cache : Cache
  trace : List Event
deriving Repr

/-- The shared tail of `report_route`: build the payload, call
`client.send`, and map a failure to `Status::InternalServerError`. -/
def sendPhase (config : AppConfig) (cache : Cache) (body : ReportBody)
    (sinkOk : Bool) (pre : List Event) : Outcome :=
  let payload := webhookPayload config body
  { result := if sinkOk then .ok "OK" else .error .internalServerError
    cache := cache
    trace := pre ++ [.sinkSend payload sinkOk] }

/-- Mirror of `report_route`.  `sinkOk` is the outcome of the webhook call
(`client.send(..).await.is_err()` negated).  In the automatic branch the
mutex guard obtained by `cache.lock().await` lives until the end of the
`if` block (or until the early `return`), which the trace records as
`lockAcquire` / `lockRelease` events. -/
def report_route (config : AppConfig) (cache : Cache) (body : ReportBody)
    (sinkOk : Bool) : Outcome :=
  if body.report_type.isAutomatic then
    let msg := dedupKey body
    if cache.contains msg then
      { result := .ok "OK"
        cache := cache
        trace := [.lockAcquire, .cacheContains msg true, .lockRelease] }
    else
      let cache1 := cache.insert msg true
      sendPhase config cache1 body sinkOk
        [.lockAcquire, .cacheContains msg false, .cacheInsert msg, .lockRelease]
  else
    sendPhase config cache body sinkOk []

/-- Whether an event is a dispatch to the sink. -/
def Event.isSink : Event → Bool
  | .sinkSend _ _ => true
  | _ => false

/-- Number of sink dispatches in one handler run. -/
def dispatchCount (o : Outcome) : Nat :=
  (o.trace.filter Event.isSink).length

/-- Run a sequence of submissions (each with its own sink outcome) through
the handler, threading the cache, and count the total sink dispatches. -/
def runList (config : AppConfig) : List (ReportBody × Bool) → Cache → Cache × Nat
  | [], cache => (cache, 0)
  | (body, ok) :: rest, cache =>
    let o := report_route config cache body ok
    let (c, n) := runList config rest o.cache
    (c, dispatchCount o + n)

/-! ## Helper lemmas about the cache -/

theorem Cache.contains_insert_self (c : Cache) (k : String) (v : Bool) :
    (c.insert k v).contains k = true := by
  simp [Cache.insert, Cache.contains]

theorem Cache.contains_insert_of_ne (c : Cache) (k k' : String) (v : Bool)
    (h : k ≠ k') : (c.insert k v).contains k' = c.contains k' := by
  simp only [Cache.insert, Cache.contains, List.any_cons, List.any_filter]
  rw [beq_eq_false_iff_ne.mpr h, Bool.false_or]
  congr 1
  funext a
  by_cases ha : a.1 = k'
  · have hk : (k' == k) = false := beq_eq_false_iff_ne.mpr (Ne.symm h)
    simp [ha, hk]
  · have hk : (a.1 == k') = false := beq_eq_false_iff_ne.mpr ha
    simp [hk]

/-! ## Sample inputs used by the witnesses -/

def cfg0 : AppConfig :=
  ⟨8080, "https://example.invalid/hook", "https://example.invalid/avatar.png"⟩

def bodyA : ReportBody := ⟨.Automatic, "crash", "1.0"⟩

def bodyM : ReportBody := ⟨.Manual, "hello", "1.0"⟩

/-! ## C1 -/

/-- C1: for an automatic submission, a cache hit on the dedup key returns
`Ok "OK"` with the cache unchanged and no sink event in the trace, while a
miss inserts the key and then dispatches the payload to the sink. -/
theorem C1_automatic_dedup (config : AppConfig) (cache : Cache)
    (body : ReportBody) (sinkOk : Bool)
    (hA : body.report_type = ReportType.Automatic) :
    (cache.contains (dedupKey body) = true →
      report_route config cache body sinkOk =
        { result := .ok "OK"
          cache := cache
          trace := [.lockAcquire, .cacheContains (dedupKey body) true,
                    .lockRelease] }) ∧
    (cache.contains (dedupKey body) = false →
      (report_route config cache body sinkOk).cache
          = cache.insert (dedupKey body) true ∧
      (report_route config cache body sinkOk).trace
          = [.lockAcquire, .cacheContains (dedupKey body) false,
             .cacheInsert (dedupKey body), .lockRelease,
             .sinkSend (webhookPayload config body) sinkOk]) := by
  constructor <;> intro h <;>
    simp [report_route, hA, ReportType.isAutomatic, h, sendPhase]

theorem C1_automatic_dedup_witness :
    bodyA.report_type = ReportType.Automatic ∧
    ((Cache.new.contains (dedupKey bodyA) = true →
      report_route cfg0 Cache.new bodyA true =
        { result := .ok "OK"
          cache := Cache.new
          trace := [.lockAcquire, .cacheContains (dedupKey bodyA) true,
                    .lockRelease] }) ∧
    (Cache.new.contains (dedupKey bodyA) = false →
      (report_route cfg0 Cache.new bodyA true).cache
          = Cache.new.insert (dedupKey bodyA) true ∧
      (report_route cfg0 Cache.new bodyA true).trace
          = [.lockAcquire, .cacheContains (dedupKey bodyA) false,
             .cacheInsert (dedupKey bodyA), .lockRelease,
             .sinkSend (webhookPayload cfg0 bodyA) true])) :=
  ⟨rfl, C1_automatic_dedup cfg0 Cache.new bodyA true rfl⟩

/-! ## C3 -/

/-- C3: a manual submission produces exactly one sink dispatch and its trace
contains no cache event at all; the cache state is returned unchanged. -/
theorem C3_manual_frame (config : AppConfig) (cache : Cache)
    (body : ReportBody) (sinkOk : Bool)
    (hM : body.report_type = ReportType.Manual) :
    (report_route config cache body sinkOk).trace
        = [.sinkSend (webhookPayload config body) sinkOk] ∧
    dispatchCount (report_route config cache body sinkOk) = 1 ∧
    (report_route config cache body sinkOk).cache = cache := by
  refine ⟨?_, ?_, ?_⟩ <;>
    simp [report_route, hM, ReportType.isAutomatic, sendPhase,
      dispatchCount, Event.isSink]

theorem C3_manual_frame_witness :
    bodyM.report_type = ReportType.Manual ∧
    ((report_route cfg0 (Cache.new.insert (dedupKey bodyM) true) bodyM true).trace
        = [.sinkSend (webhookPayload cfg0 bodyM) true] ∧
    dispatchCount
      (report_route cfg0 (Cache.new.insert (dedupKey bodyM) true) bodyM true) = 1 ∧
    (report_route cfg0 (Cache.new.insert (dedupKey bodyM) true) bodyM true).cache
        = Cache.new.insert (dedupKey bodyM) true) :=
  ⟨rfl, C3_manual_frame cfg0 (Cache.new.insert (dedupKey bodyM) true) bodyM true rfl⟩

/-! ## C5 -/

/-- C5: when the sink call for a fresh automatic submission fails, the
handler returns `Status::InternalServerError`, yet the dedup key stays in
the cache, so an identical resubmission is acknowledged with `Ok "OK"` and
dispatches nothing. -/
theorem C5_no_rollback (config : AppConfig) (cache : Cache)
    (body : ReportBody) (ok2 : Bool)
    (hA : body.report_type = ReportType.Automatic)
    (h0 : cache.contains (dedupKey body) = false) :
    (report_route config cache body false).result
        = .error .internalServerError ∧
    dispatchCount (report_route config cache body false) = 1 ∧
    (report_route config cache body false).cache.contains (dedupKey body)
        = true ∧
    (report_route config ((report_route config cache body false).cache)
        body ok2).result = .ok "OK" ∧
    dispatchCount
      (report_route config ((report_route config cache body false).cache)
        body ok2) = 0 := by
  have hins : (report_route config cache body false).cache
      = cache.insert (dedupKey body) true := by
    simp [report_route, hA, ReportType.isAutomatic, h0, sendPhase]
  have hc : (report_route config cache body false).cache.contains
      (dedupKey body) = true := by
    rw [hins]; exact Cache.contains_insert_self cache (dedupKey body) true
  refine ⟨?_, ?_, hc, ?_, ?_⟩
  · simp [report_route, hA, ReportType.isAutomatic, h0, sendPhase]
  · simp [report_route, hA, ReportType.isAutomatic, h0, sendPhase,
      dispatchCount, Event.isSink]
  · rw [hins]
    simp [report_route, hA, ReportType.isAutomatic, Cache.contains_insert_self]
  · rw [hins]
    simp [report_route, hA, ReportType.isAutomatic, Cache.contains_insert_self,
      dispatchCount, Event.isSink]

theorem C5_no_rollback_witness :
    bodyA.report_type = ReportType.Automatic ∧
    Cache.new.contains (dedupKey bodyA) = false ∧
    ((report_route cfg0 Cache.new bodyA false).result
        = .error .internalServerError ∧
    dispatchCount (report_route cfg0 Cache.new bodyA false) = 1 ∧
    (report_route cfg0 Cache.new bodyA false).cache.contains (dedupKey bodyA)
        = true ∧
    (report_route cfg0 ((report_route cfg0 Cache.new bodyA false).cache)
        bodyA true).result = .ok "OK" ∧
    dispatchCount
      (report_route cfg0 ((report_route cfg0 Cache.new bodyA false).cache)
        bodyA true) = 0) :=
  ⟨rfl, rfl, C5_no_rollback cfg0 Cache.new bodyA true rfl rfl⟩

/-! ## C6 -/

/-- `sinkOutsideLock tr d = true` iff, starting from lock depth `d`, every
sink event of `tr` happens at lock depth zero. -/
def sinkOutsideLock : List Event → Nat → Bool
  | [], _ => true
  | Event.lockAcquire :: rest, d => sinkOutsideLock rest (d + 1)
  | Event.lockRelease :: rest, d => sinkOutsideLock rest (d - 1)
  | Event.sinkSend _ _ :: rest, d => decide (d = 0) && sinkOutsideLock rest d
  | Event.cacheContains _ _ :: rest, d => sinkOutsideLock rest d
  | Event.cacheInsert _ :: rest, d => sinkOutsideLock rest d

/-- C6: in every run of the handler the sink call happens while the cache
lock is not held: the lock depth at every `sinkSend` event of the trace is
zero. -/
theorem C6_lock_scope (config : AppConfig) (cache : Cache)
    (body : ReportBody) (sinkOk : Bool) :
    sinkOutsideLock (report_route config cache body sinkOk).trace 0 = true := by
  cases hA : body.report_type
  · simp [report_route, ReportType.isAutomatic, hA, sendPhase, sinkOutsideLock]
  · cases hc : cache.contains (dedupKey body) <;>
      simp [report_route, ReportType.isAutomatic, hA, hc, sendPhase,
        sinkOutsideLock]

/-! ## C8 -/

/-- C8: the payload has title "Automatic Report" exactly for automatic
submissions and "Manual Report" otherwise, carries the message verbatim as
description, footer `"v" ++ extVersion`, and a username and avatar URL that
do not depend on the submission. -/
theorem C8_payload_fields (config : AppConfig) (b b' : ReportBody) :
    (webhookPayload config b).title
        = (if b.report_type = ReportType.Automatic then "Automatic Report"
           else "Manual Report") ∧
    (webhookPayload config b).description = b.message ∧
    (webhookPayload config b).footer = "v" ++ b.ext_version ∧
    (webhookPayload config b).username = "WNPRedux Reporter" ∧
    (webhookPayload config b).username = (webhookPayload config b').username ∧
    (webhookPayload config b).avatar_url = config.webhook_avatar_url ∧
    (webhookPayload config b).avatar_url
        = (webhookPayload config b').avatar_url := by
  refine ⟨?_, rfl, rfl, rfl, rfl, rfl, rfl⟩
  cases hA : b.report_type <;>
    simp [webhookPayload, ReportType.isAutomatic, hA]

/-! ## C9 -/

/-- First half of the colliding pair: extVersion "a", message "b - c". -/
def collide1 : ReportBody := ⟨.Automatic, "b - c", "a"⟩

/-- Second half of the colliding pair: extVersion "a - b", message "c". -/
def collide2 : ReportBody := ⟨.Automatic, "c", "a - b"⟩

/-- C9: the dedup key is not injective: `collide1` and `collide2` differ in
both fields yet share the key "a - b - c", so after `collide1` is handled,
`collide2` is suppressed as a duplicate and never dispatched. -/
theorem C9_key_not_injective :
    collide1.ext_version ≠ collide2.ext_version ∧
    collide1.message ≠ collide2.message ∧
    dedupKey collide1 = dedupKey collide2 ∧
    (report_route cfg0 ((report_route cfg0 Cache.new collide1 true).cache)
        collide2 true).result = .ok "OK" ∧
    dispatchCount
      (report_route cfg0 ((report_route cfg0 Cache.new collide1 true).cache)
        collide2 true) = 0 ∧
    dispatchCount (report_route cfg0 Cache.new collide1 true) = 1 :=
  ⟨by decide, by decide, rfl, rfl, rfl, rfl⟩

/-! ## C10 -/

/-- C10: every successful response of the handler carries exactly the
string "OK", so a suppressed duplicate is indistinguishable from an actual
dispatch. -/
theorem C10_ok_is_ok (config : AppConfig) (cache : Cache)
    (body : ReportBody) (sinkOk : Bool) (s : String)
    (h : (report_route config cache body sinkOk).result = .ok s) :
    s = "OK" := by
  cases hA : body.report_type <;>
    cases hc : cache.contains (dedupKey body) <;>
      cases sinkOk <;>
        simp [report_route, ReportType.isAutomatic, hA, hc, sendPhase] at h <;>
          exact h.symm

theorem C10_ok_is_ok_witness :
    (report_route cfg0 Cache.new bodyM true).result = .ok "OK" ∧ "OK" = "OK" :=
  ⟨rfl, C10_ok_is_ok cfg0 Cache.new bodyM true "OK" rfl⟩

/-! ## C2 -/

/-- If the key shared by a batch of automatic submissions is already cached,
running the whole batch dispatches nothing and leaves the cache unchanged. -/
theorem runList_all_hit (config : AppConfig) (v m : String) :
    ∀ (subs : List (ReportBody × Bool)) (cache : Cache),
    (∀ p ∈ subs, p.1.report_type = ReportType.Automatic ∧
      p.1.ext_version = v ∧ p.1.message = m) →
    cache.contains (v ++ " - " ++ m) = true →
    runList config subs cache = (cache, 0)
  | [], _, _, _ => rfl
  | (body, ok) :: rest, cache, hall, hc => by
    obtain ⟨hA, hv, hm⟩ := hall (body, ok) (List.mem_cons_self _ _)
    simp only [] at hA hv hm
    have hkey : dedupKey body = v ++ " - " ++ m := by
      simp [dedupKey, hv, hm]
    have ho : report_route config cache body ok =
        { result := .ok "OK"
          cache := cache
          trace := [.lockAcquire, .cacheContains (dedupKey body) true,
                    .lockRelease] } := by
      simp [report_route, hA, ReportType.isAutomatic, hkey, hc]
    have htail := runList_all_hit config v m rest cache
      (fun q hq => hall q (List.mem_cons_of_mem _ hq)) hc
    simp [runList, ho, htail, dispatchCount, Event.isSink]

/-- C2: a nonempty sequence of automatic submissions sharing the pair
(extVersion, message), run one after another from a cache in which their key
is absent, produces exactly one sink dispatch in total. -/
theorem C2_dedup_idempotent (config : AppConfig) (v m : String)
    (subs : List (ReportBody × Bool)) (cache : Cache)
    (hne : subs ≠ [])
    (hall : ∀ p ∈ subs, p.1.report_type = ReportType.Automatic ∧
      p.1.ext_version = v ∧ p.1.message = m)
    (h0 : cache.contains (v ++ " - " ++ m) = false) :
    (runList config subs cache).2 = 1 := by
  match subs, hne with
  | (body, ok) :: rest, _ =>
    obtain ⟨hA, hv, hm⟩ := hall (body, ok) (List.mem_cons_self _ _)
    simp only [] at hA hv hm
    have hkey : dedupKey body = v ++ " - " ++ m := by
      simp [dedupKey, hv, hm]
    have ho : report_route config cache body ok =
        sendPhase config (cache.insert (v ++ " - " ++ m) true) body ok
          [.lockAcquire, .cacheContains (v ++ " - " ++ m) false,
           .cacheInsert (v ++ " - " ++ m), .lockRelease] := by
      simp [report_route, hA, ReportType.isAutomatic, hkey, h0]
    have htail := runList_all_hit config v m rest
      (cache.insert (v ++ " - " ++ m) true)
      (fun q hq => hall q (List.mem_cons_of_mem _ hq))
      (Cache.contains_insert_self _ _ _)
    simp [runList, ho, htail, sendPhase, dispatchCount, Event.isSink]

theorem C2_dedup_idempotent_witness :
    ([(bodyA, true), (bodyA, false), (bodyA, true)]
        ≠ ([] : List (ReportBody × Bool))) ∧
    Cache.new.contains ("1.0" ++ " - " ++ "crash") = false ∧
    (runList cfg0 [(bodyA, true), (bodyA, false), (bodyA, true)] Cache.new).2
        = 1 :=
  ⟨by decide, rfl,
    C2_dedup_idempotent cfg0 "1.0" "crash"
      [(bodyA, true), (bodyA, false), (bodyA, true)] Cache.new
      (by decide)
      (by decide)
      rfl⟩

/-! ## C4 -/

/-- Same message but different extVersion yields different dedup keys. -/
theorem dedupKey_ne_of_ext_version_ne (b1 b2 : ReportBody)
    (hm : b1.message = b2.message)
    (hv : b1.ext_version ≠ b2.ext_version) :
    dedupKey b1 ≠ dedupKey b2 := by
  intro h
  unfold dedupKey at h
  rw [hm] at h
  have hdata := congrArg String.data h
  simp only [String.data_append, List.append_assoc] at hdata
  exact hv (String.ext (List.append_cancel_right hdata))

/-- C4: two automatic submissions with equal message but different
extVersion have distinct dedup keys, and when neither key is cached, each
of the two submissions triggers its own sink dispatch. -/
theorem C4_key_distinctness (config : AppConfig) (cache : Cache)
    (b1 b2 : ReportBody) (ok1 ok2 : Bool)
    (hA1 : b1.report_type = ReportType.Automatic)
    (hA2 : b2.report_type = ReportType.Automatic)
    (hm : b1.message = b2.message)
    (hv : b1.ext_version ≠ b2.ext_version)
    (hc1 : cache.contains (dedupKey b1) = false)
    (hc2 : cache.contains (dedupKey b2) = false) :
    dedupKey b1 ≠ dedupKey b2 ∧
    dispatchCount (report_route config cache b1 ok1) = 1 ∧
    dispatchCount
      (report_route config ((report_route config cache b1 ok1).cache)
        b2 ok2) = 1 := by
  have hne : dedupKey b1 ≠ dedupKey b2 :=
    dedupKey_ne_of_ext_version_ne b1 b2 hm hv
  have h1 : (report_route config cache b1 ok1).cache
      = cache.insert (dedupKey b1) true := by
    simp [report_route, hA1, ReportType.isAutomatic, hc1, sendPhase]
  have hc2' : (cache.insert (dedupKey b1) true).contains (dedupKey b2)
      = false := by
    rw [Cache.contains_insert_of_ne _ _ _ _ hne]
    exact hc2
  refine ⟨hne, ?_, ?_⟩
  · simp [report_route, hA1, ReportType.isAutomatic, hc1, sendPhase,
      dispatchCount, Event.isSink]
  · rw [h1]
    simp [report_route, hA2, ReportType.isAutomatic, hc2', sendPhase,
      dispatchCount, Event.isSink]

/-- The same message as `bodyA` reported by a different extension version. -/
def bodyA2 : ReportBody := ⟨.Automatic, "crash", "2.0"⟩

theorem C4_key_distinctness_witness :
    bodyA.message = bodyA2.message ∧
    bodyA.ext_version ≠ bodyA2.ext_version ∧
    (dedupKey bodyA ≠ dedupKey bodyA2 ∧
    dispatchCount (report_route cfg0 Cache.new bodyA true) = 1 ∧
    dispatchCount
      (report_route cfg0 ((report_route cfg0 Cache.new bodyA true).cache)
        bodyA2 true) = 1) :=
  ⟨rfl, by decide,
    C4_key_distinctness cfg0 Cache.new bodyA bodyA2 true true rfl rfl rfl
      (by decide) rfl rfl⟩

/-! ## C7: interleaving semantics of concurrent automatic submissions

`report_route` tasks for the same dedup key are modelled as concurrently
scheduled state machines over a shared cache and a shared mutex.  The mutex
guard of the Rust code is the `lockHolder` field: a task enters the critical
section only when no other task holds it, and the `contains` check and the
`insert` are separate steps inside the critical section, so the model keeps
every interleaving the `tokio::sync::Mutex` admits. -/

/-- Program counter of one handler task running the automatic branch for a
fixed key: before the lock, inside the critical section (freshly locked,
after the `contains` check, after the `insert`), about to call the sink
after dropping the guard, or finished (with or without having dispatched). -/
inductive TaskPC where
  | start
  | locked
  | checked (present : Bool)
  | inserted
  | dispatching
  | done (dispatched : Bool)
deriving Repr, DecidableEq

/-- A finished task. -/
def TaskPC.isDone : TaskPC → Bool
  | .done _ => true
  | _ => false

/-- Global state: the shared cache, the pc of the task holding the mutex
(if any), and the multiset of pcs of the remaining tasks. -/
structure SysState where
  cache : Cache
  lockHolder : Option TaskPC
  pool : Multiset TaskPC
deriving DecidableEq

/-- One scheduler step of the system for dedup key `k`: any ready task may
move.  Lock acquisition requires the mutex to be free; the check, the
insert and the guard drop are performed by the lock holder; the sink call
happens outside the critical section. -/
inductive SysStep (k : String) : SysState → SysState → Prop where
  | acquire (s : SysState) (h : TaskPC.start ∈ s.pool)
      (hl : s.lockHolder = none) :
      SysStep k s ⟨s.cache, some .locked, s.pool.erase .start⟩
  | check (s : SysState) (hl : s.lockHolder = some .locked) :
      SysStep k s ⟨s.cache, some (.checked (s.cache.contains k)), s.pool⟩
  | hitReturn (s : SysState) (hl : s.lockHolder = some (.checked true)) :
      SysStep k s ⟨s.cache, none, .done false ::ₘ s.pool⟩
  | insertStep (s : SysState) (hl : s.lockHolder = some (.checked false)) :
      SysStep k s ⟨s.cache.insert k true, some .inserted, s.pool⟩
  | releaseStep (s : SysState) (hl : s.lockHolder = some .inserted) :
      SysStep k s ⟨s.cache, none, .dispatching ::ₘ s.pool⟩
  | sinkStep (s : SysState) (h : TaskPC.dispatching ∈ s.pool) :
      SysStep k s ⟨s.cache, s.lockHolder, .done true ::ₘ s.pool.erase .dispatching⟩

/-- `n` tasks about to submit, mutex free, starting cache `c`. -/
def initState (c : Cache) (n : ℕ) : SysState :=
  ⟨c, none, Multiset.replicate n .start⟩

/-- 1 when the lock holder has already inserted the key. -/
def holderWinner : Option TaskPC → ℕ
  | some .inserted => 1
  | some .start => 0
  | some .locked => 0
  | some (.checked _) => 0
  | some .dispatching => 0
  | some (.done _) => 0
  | none => 0

/-- Number of tasks that won the check-and-insert race: those that inserted
the key and are heading for (or have completed) the sink call. -/
def winners (s : SysState) : ℕ :=
  s.pool.count .dispatching + s.pool.count (.done true)
    + holderWinner s.lockHolder

/-- 1 when some task holds the mutex. -/
def holderCount : Option TaskPC → ℕ
  | some _ => 1
  | none => 0

/-- All tasks have finished and the mutex is free. -/
def Terminal (s : SysState) : Prop :=
  s.lockHolder = none ∧ ∀ pc ∈ s.pool, pc.isDone = true

/-- The inductive invariant of the system: at most one winner, the cached
key witnesses exactly the existence of a winner, a task that saw the key
absent still sees it absent while it holds the lock, tasks finish without
dispatching only after the key is cached, and no task is lost. -/
structure SysInv (k : String) (n : ℕ) (s : SysState) : Prop where
  winLe : winners s ≤ 1
  containsIff : s.cache.contains k = true ↔ 1 ≤ winners s
  checkedFalse : s.lockHolder = some (.checked false) →
    s.cache.contains k = false
  doneFalseMem : s.cache.contains k = false →
    s.pool.count (.done false) = 0 ∧ s.lockHolder ≠ some (.checked true)
  cardEq : Multiset.card s.pool + holderCount s.lockHolder = n

theorem SysInv.init (k : String) (c : Cache) (n : ℕ)
    (h0 : c.contains k = false) : SysInv k n (initState c n) := by
  refine ⟨?_, ?_, ?_, ?_, ?_⟩ <;>
    simp [initState, winners, holderWinner, holderCount, h0,
      Multiset.count_replicate, Multiset.card_replicate]

theorem SysInv.step (k : String) (n : ℕ) {s t : SysState}
    (inv : SysInv k n s) (hstep : SysStep k s t) : SysInv k n t := by
  cases hstep with
  | acquire h hl =>
    have hw : winners ⟨s.cache, some .locked, s.pool.erase .start⟩
        = winners s := by
      simp [winners, holderWinner, hl,
        Multiset.count_erase_of_ne
          (by decide : TaskPC.dispatching ≠ TaskPC.start),
        Multiset.count_erase_of_ne
          (by decide : TaskPC.done true ≠ TaskPC.start)]
    have hcard : 1 ≤ Multiset.card s.pool :=
      Multiset.card_pos_iff_exists_mem.mpr ⟨_, h⟩
    have hc := inv.cardEq
    refine ⟨?_, ?_, ?_, ?_, ?_⟩
    · rw [hw]; exact inv.winLe
    · rw [show (⟨s.cache, some .locked, s.pool.erase .start⟩ : SysState).cache
          = s.cache from rfl, hw]
      exact inv.containsIff
    · intro hcf; simp at hcf
    · intro hcf
      obtain ⟨h1, _⟩ := inv.doneFalseMem hcf
      refine ⟨?_, by simp⟩
      rw [Multiset.count_erase_of_ne
        (by decide : TaskPC.done false ≠ TaskPC.start)]
      exact h1
    · simp only [holderCount, hl] at hc ⊢
      rw [Multiset.card_erase_of_mem h]
      simp only [Nat.pred_eq_sub_one]
      omega
  | check hl =>
    have hw : winners ⟨s.cache, some (.checked (s.cache.contains k)), s.pool⟩
        = winners s := by
      cases hb : s.cache.contains k <;>
        simp [winners, holderWinner, hl, hb]
    have hc := inv.cardEq
    refine ⟨?_, ?_, ?_, ?_, ?_⟩
    · rw [hw]; exact inv.winLe
    · rw [hw]; exact inv.containsIff
    · intro hcf
      simp only [Option.some.injEq, TaskPC.checked.injEq] at hcf
      exact hcf
    · intro hcf
      obtain ⟨h1, _⟩ := inv.doneFalseMem hcf
      exact ⟨h1, by simp [hcf]⟩
    · simp only [holderCount, hl] at hc ⊢
      omega
  | hitReturn hl =>
    have hct : s.cache.contains k = true := by
      cases hcc : s.cache.contains k
      · exact absurd hl (inv.doneFalseMem hcc).2
      · rfl
    have hw : winners ⟨s.cache, none, .done false ::ₘ s.pool⟩
        = winners s := by
      simp [winners, holderWinner, hl,
        Multiset.count_cons_of_ne
          (by decide : TaskPC.dispatching ≠ TaskPC.done false),
        Multiset.count_cons_of_ne
          (by decide : TaskPC.done true ≠ TaskPC.done false)]
    have hc := inv.cardEq
    refine ⟨?_, ?_, ?_, ?_, ?_⟩
    · rw [hw]; exact inv.winLe
    · rw [hw]; exact inv.containsIff
    · intro hcf; simp at hcf
    · intro hcf
      rw [hct] at hcf
      exact absurd hcf (by simp)
    · simp only [holderCount, hl, Multiset.card_cons] at hc ⊢
      omega
  | insertStep hl =>
    have hcf : s.cache.contains k = false := inv.checkedFalse hl
    have hw0 : winners s = 0 := by
      by_contra hne
      have hge : 1 ≤ winners s := Nat.one_le_iff_ne_zero.mpr hne
      rw [inv.containsIff.mpr hge] at hcf
      exact absurd hcf (by simp)
    have hz : s.pool.count .dispatching + s.pool.count (.done true) = 0 := by
      have h0 := hw0
      simp only [winners, hl, holderWinner] at h0
      omega
    have hw1 : winners ⟨s.cache.insert k true, some .inserted, s.pool⟩
        = 1 := by
      simp only [winners, holderWinner]
      omega
    have hc := inv.cardEq
    refine ⟨?_, ?_, ?_, ?_, ?_⟩
    · rw [hw1]
    · rw [hw1]
      simp [Cache.contains_insert_self]
    · intro hcl; simp at hcl
    · intro hcl
      rw [Cache.contains_insert_self] at hcl
      exact absurd hcl (by simp)
    · simp only [holderCount, hl] at hc ⊢
      omega
  | releaseStep hl =>
    have hw : winners ⟨s.cache, none, .dispatching ::ₘ s.pool⟩
        = winners s := by
      simp only [winners, holderWinner, hl, Multiset.count_cons_self,
        Multiset.count_cons_of_ne
          (by decide : TaskPC.done true ≠ TaskPC.dispatching)]
      omega
    have hwin : 1 ≤ winners s := by
      simp [winners, holderWinner, hl]
    have hct : s.cache.contains k = true := inv.containsIff.mpr hwin
    have hc := inv.cardEq
    refine ⟨?_, ?_, ?_, ?_, ?_⟩
    · rw [hw]; exact inv.winLe
    · rw [hw]; exact inv.containsIff
    · intro hcl; simp at hcl
    · intro hcl
      rw [hct] at hcl
      exact absurd hcl (by simp)
    · simp only [holderCount, hl, Multiset.card_cons] at hc ⊢
      omega
  | sinkStep h =>
    have hd1 : 1 ≤ s.pool.count .dispatching := Multiset.count_pos.mpr h
    have hw : winners ⟨s.cache, s.lockHolder,
        .done true ::ₘ s.pool.erase .dispatching⟩ = winners s := by
      simp only [winners, Multiset.count_cons_self,
        Multiset.count_cons_of_ne
          (by decide : TaskPC.dispatching ≠ TaskPC.done true),
        Multiset.count_erase_self,
        Multiset.count_erase_of_ne
          (by decide : TaskPC.done true ≠ TaskPC.dispatching)]
      omega
    have hc := inv.cardEq
    have hcard : 1 ≤ Multiset.card s.pool :=
      Multiset.card_pos_iff_exists_mem.mpr ⟨_, h⟩
    refine ⟨?_, ?_, ?_, ?_, ?_⟩
    · rw [hw]; exact inv.winLe
    · rw [hw]; exact inv.containsIff
    · exact inv.checkedFalse
    · intro hcf
      obtain ⟨h1, h2⟩ := inv.doneFalseMem hcf
      refine ⟨?_, h2⟩
      rw [Multiset.count_cons_of_ne
        (by decide : TaskPC.done false ≠ TaskPC.done true),
        Multiset.count_erase_of_ne
          (by decide : TaskPC.done false ≠ TaskPC.dispatching)]
      exact h1
    · simp only [Multiset.card_cons] at hc ⊢
      rw [Multiset.card_erase_of_mem h]
      simp only [Nat.pred_eq_sub_one]
      omega

theorem SysInv.reach (k : String) (c : Cache) (n : ℕ) (s : SysState)
    (h0 : c.contains k = false)
    (hreach : Relation.ReflTransGen (SysStep k) (initState c n) s) :
    SysInv k n s := by
  induction hreach with
  | refl => exact SysInv.init k c n h0
  | tail _ hstep ih => exact SysInv.step k n ih hstep

/-- C7: from an initial state of `n ≥ 1` concurrent automatic submissions
for a key not yet cached, every completed interleaving ends with exactly
one task having dispatched to the sink; all others finished without
dispatching. -/
theorem C7_concurrent_single_dispatch (k : String) (c : Cache) (n : ℕ)
    (s : SysState) (hn : 1 ≤ n) (h0 : c.contains k = false)
    (hreach : Relation.ReflTransGen (SysStep k) (initState c n) s)
    (hterm : Terminal s) :
    Multiset.count (TaskPC.done true) s.pool = 1 := by
  have hinv : SysInv k n s := SysInv.reach k c n s h0 hreach
  obtain ⟨hlock, hdone⟩ := hterm
  have hcd : Multiset.count TaskPC.dispatching s.pool = 0 := by
    rw [Multiset.count_eq_zero]
    intro hmem
    have := hdone _ hmem
    simp [TaskPC.isDone] at this
  have hw : winners s = Multiset.count (TaskPC.done true) s.pool := by
    simp [winners, holderWinner, hlock, hcd]
  have hle : Multiset.count (TaskPC.done true) s.pool ≤ 1 :=
    hw ▸ hinv.winLe
  rcases Nat.lt_or_ge (Multiset.count (TaskPC.done true) s.pool) 1
      with hlt | hge
  · exfalso
    have hzero : Multiset.count (TaskPC.done true) s.pool = 0 := by omega
    have hwin0 : winners s = 0 := by rw [hw, hzero]
    have hcf : s.cache.contains k = false := by
      cases hcc : s.cache.contains k
      · rfl
      · have := hinv.containsIff.mp hcc
        omega
    obtain ⟨hdf, _⟩ := hinv.doneFalseMem hcf
    have hcard : Multiset.card s.pool = n := by
      have hcq := hinv.cardEq
      simp only [holderCount, hlock] at hcq
      omega
    have hex : ∃ pc, pc ∈ s.pool :=
      Multiset.card_pos_iff_exists_mem.mp (by omega)
    obtain ⟨pc, hpc⟩ := hex
    have hisd := hdone _ hpc
    have hcount := Multiset.count_pos.mpr hpc
    cases pc with
    | done b =>
      cases b
      · omega
      · omega
    | start => simp [TaskPC.isDone] at hisd
    | locked => simp [TaskPC.isDone] at hisd
    | checked p => simp [TaskPC.isDone] at hisd
    | inserted => simp [TaskPC.isDone] at hisd
    | dispatching => simp [TaskPC.isDone] at hisd
  · omega

/-- Final state of the one-task execution used as the C7 witness. -/
def c7Final : SysState :=
  ⟨Cache.new.insert "k" true, none,
    TaskPC.done true ::ₘ
      (TaskPC.dispatching ::ₘ
        (Multiset.replicate 1 TaskPC.start).erase TaskPC.start).erase
        TaskPC.dispatching⟩

theorem c7Final_reachable :
    Relation.ReflTransGen (SysStep "k") (initState Cache.new 1) c7Final := by
  refine Relation.ReflTransGen.head (SysStep.acquire _ (by decide) rfl) ?_
  refine Relation.ReflTransGen.head (SysStep.check _ rfl) ?_
  refine Relation.ReflTransGen.head (SysStep.insertStep _ rfl) ?_
  refine Relation.ReflTransGen.head (SysStep.releaseStep _ rfl) ?_
  refine Relation.ReflTransGen.head (SysStep.sinkStep _ (by decide)) ?_
  exact Relation.ReflTransGen.refl

theorem C7_concurrent_single_dispatch_witness :
    1 ≤ 1 ∧ Cache.new.contains "k" = false ∧ Terminal c7Final ∧
    Multiset.count (TaskPC.done true) c7Final.pool = 1 :=
  ⟨Nat.le_refl 1, rfl, ⟨rfl, by decide⟩,
    C7_concurrent_single_dispatch "k" Cache.new 1 c7Final (Nat.le_refl 1)
      rfl c7Final_reachable ⟨rfl, by decide⟩⟩
